import Mathlib

/-
Verification of the sifra repository core: the chunking / retrieval
subsystem (sifra/utils/code_rag.py, sifra/tools/semantic_code_search_tool.py),
the evidence extractors (sifra/tools/har_parser_tool.py,
sifra/utils/haystack_url_parser.py, sifra/utils/goto_url_expander.py) and the
query-builder / triage policy of the spec.

Python strings are embedded as lists of characters (PyStr); Python byte-level
behaviour that the repository never relies on (non-ASCII percent escapes,
unicode word characters) is noted at the definition concerned.
-/

namespace Sifra

/-- Python str values are modelled as lists of characters. -/
abbrev PyStr := List Char

/-- Convert a Lean string literal to the PyStr model. -/
def ofStr (s : String) : PyStr := s.toList

/-- The apostrophe character (codepoint 39), written numerically. -/
def quoteChar : Char := Char.ofNat 39

/-- Python str.isspace for the characters Python strip and split treat as
whitespace (space, tab, newline, carriage return, vertical tab, form feed). -/
def isPySpace (c : Char) : Bool :=
  c = ' ' || c = '\t' || c = '\n' || c = '\r' || c = Char.ofNat 11 || c = Char.ofNat 12

/-- Python str.strip(): drop whitespace from both ends. -/
def pyStrip (s : PyStr) : PyStr :=
  ((s.dropWhile isPySpace).reverse.dropWhile isPySpace).reverse

/-- Python str.split(sep) for a one-character separator; like Python, an empty
input yields one empty field. -/
def splitChar (sep : Char) : PyStr → List PyStr
  | [] => [[]]
  | c :: rest =>
    match splitChar sep rest with
    | [] => [[]]
    | l :: ls => if c = sep then [] :: l :: ls else (c :: l) :: ls

/-- content.split(with newline) as used by every chunker. -/
def splitNl (s : PyStr) : List PyStr := splitChar '\n' s

/-- Python str.join with a newline, for lists of lines. -/
def joinNl (ls : List PyStr) : PyStr := List.intercalate ['\n'] ls

/-- Python str.split() with no argument: split on whitespace runs, dropping
empty fields.  cur holds the reversed current word. -/
def splitWsGo (cur : PyStr) : PyStr → List PyStr
  | [] => if cur = [] then [] else [cur.reverse]
  | c :: rest =>
    if isPySpace c then
      if cur = [] then splitWsGo [] rest else cur.reverse :: splitWsGo [] rest
    else splitWsGo (c :: cur) rest

/-- Python str.split() with no argument. -/
def pySplitWs (s : PyStr) : List PyStr := splitWsGo [] s

/-- Python str.join with a single space. -/
def joinSpace (ls : List PyStr) : PyStr := List.intercalate [' '] ls

/-- Does s start with pat (Python str.startswith)? -/
def leadsWith : PyStr → PyStr → Bool
  | [], _ => true
  | _ :: _, [] => false
  | p :: ps, c :: cs => p == c && leadsWith ps cs

/-- Python substring containment (pat in s). -/
def containsSub (pat : PyStr) : PyStr → Bool
  | [] => leadsWith pat []
  | c :: rest => leadsWith pat (c :: rest) || containsSub pat rest

/-- Python str.lower() for the ASCII texts the repository handles. -/
def pyLower (s : PyStr) : PyStr := s.map Char.toLower

/-- Decimal digits of a natural number, for Python f-string interpolation. -/
def natChars (n : Nat) : PyStr := Nat.toDigits 10 n

/-- Python range(0, stop, step) for a positive step. -/
def pyRangeStep (stop step : Nat) : List Nat :=
  (List.range ((stop + step - 1) / step)).map (fun k => k * step)

/-- Lexicographic strict comparison of PyStr by codepoint (Python str <). -/
def pyLt : PyStr → PyStr → Bool
  | [], [] => false
  | [], _ :: _ => true
  | _ :: _, [] => false
  | a :: xs, b :: ys => if a = b then pyLt xs ys else decide (a < b)

/-- Lexicographic non-strict comparison of PyStr by codepoint (Python str <=). -/
def pyLe : PyStr → PyStr → Bool
  | [], _ => true
  | _ :: _, [] => false
  | a :: xs, b :: ys => if a = b then pyLe xs ys else decide (a < b)

/-- Python min over a nonempty list given its head (first minimum wins). -/
def pyMinL (x : PyStr) (l : List PyStr) : PyStr :=
  l.foldl (fun a b => if pyLt b a then b else a) x

/-- Python max over a nonempty list given its head (first maximum wins). -/
def pyMaxL (x : PyStr) (l : List PyStr) : PyStr :=
  l.foldl (fun a b => if pyLt a b then b else a) x

/-- Python min of a list of strings; empty list handled with an empty default
(the sources only call it on nonempty lists). -/
def pyMin : List PyStr → PyStr
  | [] => []
  | x :: l => pyMinL x l

/-- Python max of a list of strings. -/
def pyMax : List PyStr → PyStr
  | [] => []
  | x :: l => pyMaxL x l

/-
Chunker embedding, from sifra/utils/code_rag.py.
chunk_size = 1200, chunk_overlap = 150, yaml_chunk_size = 2000 are the
constructor constants of CodeRAG.
-/

/-- A chunk record as built by the CodeRAG chunkers; name and ctype hold the
source dict entries name and type (None modelled as none). -/
structure Chunk where
  id : PyStr
  text : PyStr
  file : PyStr
  start_line : Nat
  end_line : Nat
  name : Option PyStr
  ctype : Option PyStr
deriving DecidableEq, Repr

/-- The chunk id f-string file:line of code_rag.py. -/
def chunkId (file : PyStr) (line : Nat) : PyStr := file ++ ':' :: natChars line

/-- CodeRAG._chunk_generic_file: sliding window of 50 lines advancing by 45,
dropping windows whose stripped text has at most 50 characters. -/
def chunk_generic_file (content file : PyStr) : List Chunk :=
  let lines := splitNl content
  (pyRangeStep lines.length 45).filterMap (fun i =>
    let body := (lines.drop i).take 50
    let text := joinNl body
    if 50 < (pyStrip text).length then
      some { id := chunkId file (i + 1), text := text, file := file,
             start_line := i + 1, end_line := min (i + 50) lines.length,
             name := none, ctype := some (ofStr "generic_chunk") }
    else none)

/-- Python regex word character, ASCII fragment (the texts handled are ASCII). -/
def isWordChar (c : Char) : Bool := c.isAlphanum || c = '_'

/-- Match of the Ruby definition regexes of _chunk_ruby_file: optional leading
whitespace, the keyword, at least one whitespace, then the captured word. -/
def matchKw (kw : PyStr) (line : PyStr) : Option PyStr :=
  let rest := line.dropWhile isPySpace
  if leadsWith kw rest then
    let s1 := rest.drop kw.length
    let sp := s1.takeWhile isPySpace
    if sp = [] then none
    else
      let nm := (s1.drop sp.length).takeWhile isWordChar
      if nm = [] then none else some nm
  else none

/-- The class / module / def detection of _chunk_ruby_file, with the class
match taking precedence, then module, then method. -/
def rubyDefMatch (line : PyStr) : Option (PyStr × PyStr) :=
  match matchKw (ofStr "class") line with
  | some nm => some (nm, ofStr "class")
  | none =>
    match matchKw (ofStr "module") line with
    | some nm => some (nm, ofStr "module")
    | none => (matchKw (ofStr "def") line).map (fun nm => (nm, ofStr "method"))

/-- Loop state of _chunk_ruby_file: accumulated chunks, the current chunk
lines, its name, type and 1-based start line. -/
structure RbState where
  chunks : List Chunk
  current : List PyStr
  name : Option PyStr
  ctype : Option PyStr
  startLine : Nat

/-- Saving step of _chunk_ruby_file: append the current chunk when nonempty
and its stripped text exceeds 50 characters. -/
def rbSave (file : PyStr) (st : RbState) (endLine : Nat) : List Chunk :=
  if st.current ≠ [] ∧ 50 < (pyStrip (joinNl st.current)).length then
    st.chunks ++ [{ id := chunkId file st.startLine, text := joinNl st.current,
                    file := file, start_line := st.startLine, end_line := endLine,
                    name := st.name, ctype := st.ctype }]
  else st.chunks

/-- The enumerate loop of _chunk_ruby_file over the lines; i is the 0-based
line index, total the line count used by the final save. -/
def chunkRubyLoop (file : PyStr) (total : Nat) : Nat → RbState → List PyStr → List Chunk
  | _, st, [] => rbSave file st total
  | i, st, line :: rest =>
    match rubyDefMatch line with
    | some (nm, ty) =>
      chunkRubyLoop file total (i + 1)
        { chunks := rbSave file st i, current := [line], name := some nm,
          ctype := some ty, startLine := i + 1 } rest
    | none =>
      chunkRubyLoop file total (i + 1) { st with current := st.current ++ [line] } rest

/-- CodeRAG._chunk_ruby_file, falling back to generic chunking when no chunk
survived. -/
def chunk_ruby_file (content file : PyStr) : List Chunk :=
  let lines := splitNl content
  let cs := chunkRubyLoop file lines.length 0
    { chunks := [], current := [], name := none, ctype := none, startLine := 0 } lines
  if cs = [] then chunk_generic_file content file else cs

/-- CodeRAG._split_large_yaml_section: re-split by a 2000-line step with a
150-line overlap, dropping windows whose stripped text has at most 30
characters; the name carries the sequential part suffix (a None section name
renders as the Python text None). -/
def split_large_yaml_section (content file : PyStr) (startLine : Nat)
    (sectionName : Option PyStr) : List Chunk :=
  let lines := splitNl content
  (pyRangeStep lines.length 2000).filterMap (fun i =>
    let chunkLines := (lines.drop i).take (2000 + 150)
    let text := joinNl chunkLines
    if 30 < (pyStrip text).length then
      some { id := chunkId file (startLine + i), text := text, file := file,
             start_line := startLine + i,
             end_line := startLine + i + chunkLines.length,
             name := some ((sectionName.getD (ofStr "None")) ++ ofStr "_part_" ++
                           natChars (i / 2000 + 1)),
             ctype := some (ofStr "yaml_section_part") }
    else none)

/-- The top-level-key test of _chunk_yaml_file: nonempty line whose first
character is not whitespace, containing a colon, not starting with a hash. -/
def isTopLevelKey (line : PyStr) : Bool :=
  match line with
  | [] => false
  | c :: _ => !isPySpace c && containsSub [':'] line && !leadsWith ['#'] line

/-- Loop state of _chunk_yaml_file. -/
structure YmState where
  chunks : List Chunk
  current : List PyStr
  key : Option PyStr
  startLine : Nat

/-- Mid-loop save of _chunk_yaml_file at a new top-level key: keep the section
whole when its stripped text exceeds 30 characters and its text is below twice
yaml_chunk_size (4000); sections of 4000 characters or more are re-split. -/
def ymSaveMid (file : PyStr) (st : YmState) (endLine : Nat) : List Chunk :=
  if st.current ≠ [] then
    let text := joinNl st.current
    if 30 < (pyStrip text).length ∧ text.length < 4000 then
      st.chunks ++ [{ id := chunkId file st.startLine, text := text, file := file,
                      start_line := st.startLine, end_line := endLine,
                      name := st.key, ctype := some (ofStr "yaml_section") }]
    else if 4000 ≤ text.length then
      st.chunks ++ split_large_yaml_section text file st.startLine st.key
    else st.chunks
  else st.chunks

/-- Final save of _chunk_yaml_file: here the 30-character strip filter gates
both the whole-section and the re-split branch. -/
def ymSaveEnd (file : PyStr) (st : YmState) (total : Nat) : List Chunk :=
  if st.current ≠ [] then
    let text := joinNl st.current
    if 30 < (pyStrip text).length then
      if text.length < 4000 then
        st.chunks ++ [{ id := chunkId file st.startLine, text := text, file := file,
                        start_line := st.startLine, end_line := total,
                        name := st.key, ctype := some (ofStr "yaml_section") }]
      else st.chunks ++ split_large_yaml_section text file st.startLine st.key
    else st.chunks
  else st.chunks

/-- The enumerate loop of _chunk_yaml_file. -/
def chunkYamlLoop (file : PyStr) (total : Nat) : Nat → YmState → List PyStr → List Chunk
  | _, st, [] => ymSaveEnd file st total
  | i, st, line :: rest =>
    if isTopLevelKey line then
      chunkYamlLoop file total (i + 1)
        { chunks := ymSaveMid file st i, current := [line],
          key := some (pyStrip ((splitChar ':' line).headD [])),
          startLine := i + 1 } rest
    else
      chunkYamlLoop file total (i + 1) { st with current := st.current ++ [line] } rest

/-- CodeRAG._chunk_yaml_file, falling back to generic chunking when no chunk
survived. -/
def chunk_yaml_file (content file : PyStr) : List Chunk :=
  let lines := splitNl content
  let cs := chunkYamlLoop file lines.length 0
    { chunks := [], current := [], key := none, startLine := 0 } lines
  if cs = [] then chunk_generic_file content file else cs

/-
Query-phase embedding, from CodeRAG.query (sifra/utils/code_rag.py) and
SemanticCodeSearchTool._run (sifra/tools/semantic_code_search_tool.py).
The ChromaDB collection and the embedding model are external collaborators;
they are modelled as a store with an entry count and a search oracle.
Distances are floats in the source; they are modelled as rationals, and the
concrete distances used below are exactly representable in binary floating
point, where subtraction from 1.0 is exact.
-/

/-- One formatted result of CodeRAG.query: chunk text plus the stored
metadata and the nearest-neighbour distance. -/
structure RagResult where
  chunk_id : PyStr
  text : PyStr
  file : PyStr
  start_line : Nat
  end_line : Nat
  name : PyStr
  rtype : PyStr
  dist : Rat
deriving DecidableEq

/-- The vector store collaborator: collection.count() and the
nearest-neighbour lookup already formatted as CodeRAG.query formats it. -/
structure RagStore where
  count : Nat
  search : PyStr → Nat → List RagResult

/-- CodeRAG.query (and identically ConfluenceRAG.query): a falsy top_k falls
back to the configured default 10; an empty collection returns the empty list
after printing a warning. -/
def code_rag_query (store : RagStore) (question : PyStr) (topK : Option Nat) :
    List RagResult :=
  let k := match topK with
    | none => 10
    | some 0 => 10
    | some n => n
  if store.count = 0 then [] else store.search question k

/-- One match object of the SemanticCodeSearchTool JSON output. -/
structure ToolMatch where
  file : PyStr
  start_line : Nat
  end_line : Nat
  name : PyStr
  mtype : PyStr
  relevance_score : Rat
  code_snippet : PyStr
  snippet_length : Nat
deriving DecidableEq

/-- The distinct JSON shapes SemanticCodeSearchTool._run can return. -/
inductive ToolOutput where
  | errorNoQuery : ToolOutput
  | notIndexed : ToolOutput
  | noMatches : ToolOutput
  | matches : List ToolMatch → ToolOutput
deriving DecidableEq

/-- The per-result formatting of SemanticCodeSearchTool._run: the relevance
score is 1.0 minus the distance with no clamping, and the code snippet is the
stored chunk text, untruncated. -/
def formatMatch (r : RagResult) : ToolMatch :=
  { file := r.file, start_line := r.start_line, end_line := r.end_line,
    name := r.name, mtype := r.rtype, relevance_score := 1 - r.dist,
    code_snippet := r.text, snippet_length := r.text.length }

/-- SemanticCodeSearchTool._run: empty query error, the distinguished
not-indexed error when count() is zero, the no-matches message, or the
formatted match list. -/
def semantic_code_search_run (store : RagStore) (query : PyStr) (topK : Nat) :
    ToolOutput :=
  if query = [] then .errorNoQuery
  else if store.count = 0 then .notIndexed
  else
    let results := code_rag_query store query (some topK)
    if results = [] then .noMatches
    else .matches (results.map formatMatch)

/-
HAR parser embedding, from HARParserTool (sifra/tools/har_parser_tool.py).
File loading and JSON decoding are external; the embedding starts from the
decoded entry list.
-/

/-- A HAR header name/value pair. -/
structure Header where
  name : PyStr
  value : PyStr
deriving DecidableEq

/-- One decoded HAR entry: response status, request URL, request and response
headers, response content text and start timestamp. -/
structure HarEntry where
  status : Int
  url : PyStr
  reqHeaders : List Header
  respHeaders : List Header
  body : PyStr
  startedDateTime : PyStr
deriving DecidableEq

/-- Hex digit test of the UUID regex character class with re.IGNORECASE. -/
def isHexDigit (c : Char) : Bool :=
  ('0' ≤ c && c ≤ '9') || ('a' ≤ c && c ≤ 'f') || ('A' ≤ c && c ≤ 'F')

/-- Consume exactly n hex digits, returning the remainder. -/
def hexRun : Nat → PyStr → Option PyStr
  | 0, s => some s
  | _ + 1, [] => none
  | n + 1, c :: s => if isHexDigit c then hexRun n s else none

/-- Consume a dash then exactly n hex digits. -/
def dashHex (n : Nat) : PyStr → Option PyStr
  | '-' :: rest => hexRun n rest
  | _ => none

/-- Consume the 8-4-4-4-12 UUID shape (36 characters), returning the
remainder. -/
def uuidShape (s : PyStr) : Option PyStr := do
  let s1 ← hexRun 8 s
  let s2 ← dashHex 4 s1
  let s3 ← dashHex 4 s2
  let s4 ← dashHex 4 s3
  dashHex 12 s4

/-- re.findall of the UUID pattern with word boundaries: scan left to right,
requiring a non-word character (or the string start) before a match and a
non-word character (or the string end) after it, then continue past the
match.  prevW records whether the previous character was a word character;
the fuel argument bounds the recursion and one unit is spent per character,
so an initial fuel of the string length plus one never runs out. -/
def scanUuidsAux : Nat → Bool → PyStr → List PyStr
  | 0, _, _ => []
  | _ + 1, _, [] => []
  | fuel + 1, prevW, c :: rest =>
    if prevW then scanUuidsAux fuel (isWordChar c) rest
    else
      match uuidShape (c :: rest) with
      | some after =>
        match after with
        | [] => [(c :: rest).take 36]
        | a :: _ =>
          if isWordChar a then scanUuidsAux fuel (isWordChar c) rest
          else ((c :: rest).take 36) :: scanUuidsAux fuel true after
      | none => scanUuidsAux fuel (isWordChar c) rest

/-- HARParserTool._extract_uuids: all word-bounded case-insensitive
8-4-4-4-12 hex substrings, in match order. -/
def extract_uuids (s : PyStr) : List PyStr := scanUuidsAux (s.length + 1) false s

/-- Python set.add used through set.update: append when not yet present. -/
def insertNew (acc : List PyStr) (x : PyStr) : List PyStr :=
  if x ∈ acc then acc else acc ++ [x]

/-- Python set.update with a list of found matches. -/
def setUnion (acc : List PyStr) (xs : List PyStr) : List PyStr :=
  xs.foldl insertNew acc

/-- The header-name test of _run: the lowered name contains correlation,
request-id or trace. -/
def isCorrHeader (h : Header) : Bool :=
  containsSub (ofStr "correlation") (pyLower h.name) ||
  containsSub (ofStr "request-id") (pyLower h.name) ||
  containsSub (ofStr "trace") (pyLower h.name)

/-- The texts scanned for UUIDs per entry, in source order: the request URL,
the values of matching request then response headers, and, when nonempty, the
first 1000 characters of the response body. -/
def entryUuidTexts (e : HarEntry) : List PyStr :=
  [e.url] ++ ((e.reqHeaders ++ e.respHeaders).filter isCorrHeader).map Header.value ++
  (if e.body = [] then [] else [e.body.take 1000])

/-- The UUID set accumulated by the entry loop of _run over a considered
entry list. -/
def uuidSetOf (considered : List HarEntry) : List PyStr :=
  considered.foldl (fun acc e => (entryUuidTexts e).foldl
    (fun a t => setUnion a (extract_uuids t)) acc) []

/-- The timestamp list accumulated by the entry loop of _run: the start
timestamps of the considered entries, skipping falsy (empty) ones. -/
def timesOf (considered : List HarEntry) : List PyStr :=
  considered.foldl (fun acc e =>
    if e.startedDateTime = [] then acc else acc ++ [e.startedDateTime]) []

/-- The failed-request filter of _run. -/
def harFailed (entries : List HarEntry) (findErrors : Bool) : List HarEntry :=
  if findErrors then entries.filter (fun e => decide (400 ≤ e.status)) else entries

/-- The distinct outputs of HARParserTool._run after the file has been
decoded; ok carries the counts, the UUID set, the timestamps and, when
timestamps exist, the min/max pair reported as the time range. -/
inductive HarOutput where
  | noEntries : HarOutput
  | noFailures : Nat → HarOutput
  | noUuids : HarOutput
  | ok : Nat → Nat → List PyStr → List PyStr → Option (PyStr × PyStr) → HarOutput
deriving DecidableEq

/-- HARParserTool._run from the decoded entries: filter failures when
requested, limit to the first 10, extract UUIDs when requested, collect
timestamps, and report min/max of the timestamps as the time range. -/
def har_parser_run (entries : List HarEntry) (extractU findErrors : Bool) :
    HarOutput :=
  if entries = [] then .noEntries
  else
    let failed := harFailed entries findErrors
    if failed = [] then .noFailures entries.length
    else
      let considered := failed.take 10
      let uuids := if extractU then uuidSetOf considered else []
      let times := timesOf considered
      if uuids = [] then .noUuids
      else .ok entries.length failed.length uuids times
        (if times = [] then none else some (pyMin times, pyMax times))

/-
Haystack URL parser embedding, from HaystackURLParser
(sifra/utils/haystack_url_parser.py).  The parsed result is modelled with the
fields the verified claims concern (product, query string, time range); the
pod lookup, the email extraction and the original-url echo of the result dict
are orthogonal to every claim and are not modelled.  urllib.parse.unquote is
modelled for ASCII percent escapes (the only escapes the fragment patterns
produce); multi-byte UTF-8 escape decoding is out of modelled scope.
-/

/-- Hexadecimal value of one character (codepoint arithmetic), for percent
decoding: digits map to 0-9, letters a-f and A-F to 10-15. -/
def hexVal (c : Char) : Option Nat :=
  let n := c.toNat
  if 48 ≤ n ∧ n ≤ 57 then some (n - 48)
  else if 97 ≤ n ∧ n ≤ 102 then some (n - 87)
  else if 65 ≤ n ∧ n ≤ 70 then some (n - 55)
  else none

/-- urllib.parse.unquote restricted to ASCII escapes: a percent followed by
two hex digits below 0x80 decodes to that character, anything else is kept
verbatim. -/
def unquote : PyStr → PyStr
  | [] => []
  | '%' :: a :: b :: rest =>
    match hexVal a, hexVal b with
    | some x, some y =>
      if x * 16 + y < 128 then Char.ofNat (x * 16 + y) :: unquote rest
      else '%' :: unquote (a :: b :: rest)
    | _, _ => '%' :: unquote (a :: b :: rest)
  | c :: rest => c :: unquote rest

/-- The literal before the from capture of the time regex of _parse_fragment. -/
def timeLit : PyStr := ofStr "time:(from:" ++ [quoteChar]

/-- The literal between the two time captures. -/
def timeMidLit : PyStr := [quoteChar] ++ ofStr ",to:" ++ [quoteChar]

/-- The literal closing the time pattern. -/
def timeEndLit : PyStr := [quoteChar] ++ ofStr ")"

/-- The literal before the indexPatternTitle capture. -/
def ipLit : PyStr := ofStr "indexPatternTitle:" ++ [quoteChar]

/-- The literal before the query capture of the lucene query pattern. -/
def queryLit : PyStr := ofStr "query:(language:lucene,query:" ++ [quoteChar]

/-- Attempt the time pattern at the current position: the literal, a nonempty
run of non-quote characters, the middle literal, a second nonempty run, and
the closing literal; the runs are the two captures. -/
def matchTimeAt (s : PyStr) : Option (PyStr × PyStr) :=
  if leadsWith timeLit s then
    let s1 := s.drop timeLit.length
    let fromC := s1.takeWhile (fun c => c ≠ quoteChar)
    if fromC = [] then none
    else
      let s2 := s1.drop fromC.length
      if leadsWith timeMidLit s2 then
        let s3 := s2.drop timeMidLit.length
        let toC := s3.takeWhile (fun c => c ≠ quoteChar)
        if toC = [] then none
        else if leadsWith timeEndLit (s3.drop toC.length) then some (fromC, toC)
        else none
      else none
  else none

/-- re.search of the time pattern: leftmost match. -/
def findTime : PyStr → Option (PyStr × PyStr)
  | [] => matchTimeAt []
  | c :: rest =>
    match matchTimeAt (c :: rest) with
    | some r => some r
    | none => findTime rest

/-- Attempt the indexPatternTitle pattern at the current position. -/
def matchIpAt (s : PyStr) : Option PyStr :=
  if leadsWith ipLit s then
    let s1 := s.drop ipLit.length
    let cap := s1.takeWhile (fun c => c ≠ quoteChar)
    if cap = [] then none
    else if leadsWith [quoteChar] (s1.drop cap.length) then some cap else none
  else none

/-- re.search of the indexPatternTitle pattern. -/
def findIp : PyStr → Option PyStr
  | [] => matchIpAt []
  | c :: rest =>
    match matchIpAt (c :: rest) with
    | some r => some r
    | none => findIp rest

/-- Attempt the lucene query pattern at the current position. -/
def matchQueryAt (s : PyStr) : Option PyStr :=
  if leadsWith queryLit s then
    let s1 := s.drop queryLit.length
    let cap := s1.takeWhile (fun c => c ≠ quoteChar)
    if cap = [] then none
    else if leadsWith timeEndLit (s1.drop cap.length) then some cap else none
  else none

/-- re.search of the lucene query pattern. -/
def findQuery : PyStr → Option PyStr
  | [] => matchQueryAt []
  | c :: rest =>
    match matchQueryAt (c :: rest) with
    | some r => some r
    | none => findQuery rest

/-- The query cleanup of _parse_discover_url: newlines and carriage returns
become spaces, whitespace runs collapse, ends trimmed. -/
def cleanQuery (q : PyStr) : PyStr :=
  pyStrip (joinSpace (pySplitWs (q.map (fun c =>
    if c = '\n' || c = '\r' then ' ' else c))))

/-- The search parameters the claims concern, as extracted by
_parse_discover_url. -/
structure HsParams where
  product : PyStr
  query_string : PyStr
  timestamp_gte : PyStr
  timestamp_lte : PyStr
deriving DecidableEq

/-- HaystackURLParser._parse_discover_url: require a hash, percent-decode the
fragment after the first hash, extract the three patterns, clean the query
when nonempty, default the index pattern; missing patterns leave empty time
bounds and an empty query. -/
def parse_discover_url (u : PyStr) : Option HsParams :=
  if containsSub ['#'] u then
    match (splitChar '#' u).drop 1 with
    | [] => none
    | frag0 :: _ =>
      let frag := unquote frag0
      let tGte := match findTime frag with | some (f, _) => f | none => []
      let tLte := match findTime frag with | some (_, t) => t | none => []
      let q0 := match findQuery frag with | some q => q | none => []
      let q := if q0 = [] then q0 else cleanQuery q0
      let ip := match findIp frag with | some p => p | none => ofStr "freshservice*"
      some { product := ip, query_string := q,
             timestamp_gte := tGte, timestamp_lte := tLte }
  else none

/-- Login-page detection shared by _parse_goto_url and expand_goto_url. -/
def isLoginUrl (u : PyStr) : Bool :=
  containsSub (ofStr "accounts.google.com") u ||
  containsSub (ofStr "login") (pyLower u)

/-- HaystackURLParser._parse_goto_url, instrumented: resolve models the
redirect-following HEAD request (none models a raised request exception); the
second component records, in order, whether each HTTP request issued carried
the configured authentication cookies.  The source issues exactly one request
and always passes cookies=cookies to it. -/
def parse_goto_url_runs (resolve : PyStr → Option PyStr) (u : PyStr) :
    Option HsParams × List Bool :=
  match resolve u with
  | none => (none, [true])
  | some final =>
    if isLoginUrl final then (none, [true])
    else if containsSub (ofStr "/app/discover") final then
      (parse_discover_url final, [true])
    else (none, [true])

/-- HaystackURLParser._parse_goto_url, result only. -/
def parse_goto_url (resolve : PyStr → Option PyStr) (u : PyStr) :
    Option HsParams :=
  (parse_goto_url_runs resolve u).1

/-- HaystackURLParser.parse_haystack_url: goto URLs are resolved then parsed,
discover URLs parsed directly, anything else is unsupported; every error path
returns None. -/
def parse_haystack_url (resolve : PyStr → Option PyStr) (u : PyStr) :
    Option HsParams :=
  if containsSub (ofStr "/goto/") u then parse_goto_url resolve u
  else if containsSub (ofStr "/app/discover") u then parse_discover_url u
  else none

/-
Goto URL expander embedding, from expand_goto_url
(sifra/utils/goto_url_expander.py).  fetch models the redirect-following HEAD
request; its argument tells whether the authentication cookies are attached,
and none models a raised request exception.  The second component of the
result records the cookie flag of each request issued, in order.
-/

/-- expand_goto_url, instrumented with the request trace. -/
def expand_goto_url_runs (fetch : Bool → Option PyStr) :
    Option PyStr × List Bool :=
  match fetch false with
  | none => (none, [false])
  | some u1 =>
    if isLoginUrl u1 then
      match fetch true with
      | none => (none, [false, true])
      | some u2 =>
        if isLoginUrl u2 then (none, [false, true])
        else if containsSub (ofStr "/app/discover") u2 then (some u2, [false, true])
        else (none, [false, true])
    else if containsSub (ofStr "/app/discover") u1 then (some u1, [false])
    else (none, [false])

/-- expand_goto_url, result only. -/
def expand_goto_url (fetch : Bool → Option PyStr) : Option PyStr :=
  (expand_goto_url_runs fetch).1

/-
Query builder and triage model.
-/

/-- Modelled from the spec: the Query Builder and Triage policy of spec
section 4.5 is executed at runtime by an LLM following the prompt text of
LogUrlGenerator._setup_agent (sifra/agents/log_url_generator.py); no
executable decision procedure exists in the source, so the ordered rules are
modelled from the words of the spec.  Evidence source kinds of the spec. -/
inductive SourceKind where
  | capture : SourceKind
  | url : SourceKind
  | manual : SourceKind
deriving DecidableEq

/-- Modelled from the spec: the Search Parameters record of spec section 3,
with absolute timestamps in minutes. -/
structure SpecSearchParams where
  queryString : PyStr
  gte : Int
  lte : Int
deriving DecidableEq

/-- Modelled from the spec: built parameters tagged with their data source. -/
structure BuiltQuery where
  params : SpecSearchParams
  tag : SourceKind
deriving DecidableEq

/-- Modelled from the spec: a network-capture evidence bundle with its
extracted identifiers and entry timestamps. -/
structure CaptureEvidence where
  identifiers : List PyStr
  timestamps : List Int
deriving DecidableEq

/-- Modelled from the spec: the evidence available to one triage run. -/
structure TriageInput where
  capture : Option CaptureEvidence
  urlParams : Option SpecSearchParams
  ticketText : PyStr
  manualTerms : PyStr
  ticketCreatedAt : Int
deriving DecidableEq

/-- Join identifiers with the boolean OR of spec rule 1. -/
def joinOr (ids : List PyStr) : PyStr := List.intercalate (ofStr " OR ") ids

/-- Minimum of an integer list with a zero default for the empty list. -/
def intMinL : List Int → Int
  | [] => 0
  | x :: l => l.foldl min x

/-- Maximum of an integer list with a zero default for the empty list. -/
def intMaxL : List Int → Int
  | [] => 0
  | x :: l => l.foldl max x

/-- Modelled from the spec: rules 2 and 3 of section 4.5 — a resolvable URL
is used verbatim, otherwise manual parameters with a 7-day lookback window
(10080 minutes) ending at the ticket creation time. -/
def urlOrManual (inp : TriageInput) : BuiltQuery :=
  match inp.urlParams with
  | some p => { params := p, tag := .url }
  | none =>
    { params := { queryString := inp.manualTerms,
                  gte := inp.ticketCreatedAt - 10080,
                  lte := inp.ticketCreatedAt },
      tag := .manual }

/-- Modelled from the spec: the ordered transition rules of section 4.5,
first match wins — a capture with at least one extracted identifier dominates
(query built only from the identifiers joined by OR, time range the capture
min/max timestamps widened by 30 minutes), then a resolvable URL verbatim,
then manual construction. -/
def buildQuery (inp : TriageInput) : BuiltQuery :=
  match inp.capture with
  | some c =>
    if c.identifiers ≠ [] then
      { params := { queryString := joinOr c.identifiers,
                    gte := intMinL c.timestamps - 30,
                    lte := intMaxL c.timestamps + 30 },
        tag := .capture }
    else urlOrManual inp
  | none => urlOrManual inp

/-- Modelled from the spec: the authentication keyword set of section 4.5. -/
def authKeywords : List PyStr :=
  [ofStr "login", ofStr "logout", ofStr "SSO", ofStr "SAML", ofStr "OAuth",
   ofStr "session", ofStr "token", ofStr "401", ofStr "403"]

/-- Modelled from the spec: does the ticket text match the authentication
keyword set? -/
def hasAuthKeyword (text : PyStr) : Bool :=
  authKeywords.any (fun k => containsSub k text)

/-- Modelled from the spec: the terminal triage decisions of section 3. -/
inductive TriageDecision where
  | proceed : SourceKind → TriageDecision
  | insufficientData : TriageDecision
  | escalate : PyStr → TriageDecision
deriving DecidableEq

/-- Modelled from the spec: the triage step after parameters are built —
authentication escalation (withholding the log search, so no parameters are
issued) when the keyword set matches and neither a capture nor a resolvable
URL was available; insufficient data when no evidence source was found and
the issued search returned zero results; proceed otherwise.  The second
component is the search issued downstream, none when withheld. -/
def triage (inp : TriageInput) (searchEmpty : Bool) :
    TriageDecision × Option SpecSearchParams :=
  let b := buildQuery inp
  if hasAuthKeyword inp.ticketText && inp.capture.isNone && inp.urlParams.isNone then
    (.escalate (ofStr "authentication"), none)
  else if inp.capture.isNone && inp.urlParams.isNone && searchEmpty then
    (.insufficientData, some b.params)
  else (.proceed b.tag, some b.params)

/-
Concrete inputs used by the claim witnesses and counterexamples.
-/

/-- A one-word document every chunker drops entirely. -/
def helloDoc : PyStr := ofStr "hello"

/-- A 60-character single-line document the generic chunker keeps. -/
def longLineDoc : PyStr := List.replicate 60 'a'

/-- A YAML document with one top-level key whose single-line section has 4505
characters, which forces the re-split path. -/
def bigYamlDoc : PyStr := ofStr "key: " ++ List.replicate 4500 'a'

/-- The single chunk the chunker produces from bigYamlDoc: the whole
4505-character section, re-split into one part that keeps every character. -/
def bigChunk : Chunk :=
  { id := chunkId (ofStr "f.yml") 1, text := bigYamlDoc, file := ofStr "f.yml",
    start_line := 1, end_line := 2, name := some (ofStr "key_part_1"),
    ctype := some (ofStr "yaml_section_part") }

/-- A 40-character section text for the re-split witness. -/
def smallSection : PyStr := List.replicate 40 'a'

/-- The chunk the re-split witness talks about. -/
def smallSectionChunk : Chunk :=
  (split_large_yaml_section smallSection (ofStr "f.yml") 1 (some (ofStr "key"))).headD
    { id := [], text := [], file := [], start_line := 0, end_line := 0,
      name := none, ctype := none }

/-- An empty vector store (count zero). -/
def ragEmptyStore : RagStore := { count := 0, search := fun _ _ => [] }

/-- A stored result at nearest-neighbour distance 2 (exactly representable in
floating point, where 1.0 - 2.0 is exact). -/
def ragFarResult : RagResult :=
  { chunk_id := ofStr "c", text := ofStr "txt", file := ofStr "f",
    start_line := 1, end_line := 2, name := ofStr "n", rtype := ofStr "t",
    dist := 2 }

/-- A one-entry store whose lookup returns the distance-2 result. -/
def ragFarStore : RagStore := { count := 1, search := fun _ _ => [ragFarResult] }

/-- A failed HAR entry with UUIDs in the URL and in a correlation header. -/
def harE1 : HarEntry :=
  { status := 500, url := ofStr "http://a/b2c3d4e5-1234-5678-9abc-def012345678",
    reqHeaders := [{ name := ofStr "X-Correlation-Id",
                     value := ofStr "aaaaaaaa-1111-2222-3333-444444444444" }],
    respHeaders := [], body := ofStr "ok",
    startedDateTime := ofStr "2025-01-01T00:00:00Z" }

/-- A successful HAR entry that error-focused extraction must skip. -/
def harE2 : HarEntry :=
  { status := 200, url := ofStr "http://a/ffffffff-1234-5678-9abc-def012345678",
    reqHeaders := [], respHeaders := [], body := [],
    startedDateTime := ofStr "2025-01-02T00:00:00Z" }

/-- The URL UUID of harE1. -/
def harU1 : PyStr := ofStr "b2c3d4e5-1234-5678-9abc-def012345678"

/-- A discover URL whose fragment carries a reversed time range (from b to a). -/
def reversedUrl : PyStr :=
  ofStr "https://h.es/app/discover#/?_g=(time:(from:" ++ [quoteChar] ++ ofStr "b" ++
  [quoteChar] ++ ofStr ",to:" ++ [quoteChar] ++ ofStr "a" ++ [quoteChar] ++
  ofStr "))&_a=(indexPatternTitle:" ++ [quoteChar] ++ ofStr "fs*" ++ [quoteChar] ++
  ofStr ",query:(language:lucene,query:" ++ [quoteChar] ++ ofStr "96a9 x" ++
  [quoteChar] ++ ofStr "))"

/-- The parameters the parser extracts from reversedUrl. -/
def reversedParams : HsParams :=
  { product := ofStr "fs*", query_string := ofStr "96a9 x",
    timestamp_gte := ofStr "b", timestamp_lte := ofStr "a" }

/-- A resolver that is never consulted. -/
def noResolve : PyStr → Option PyStr := fun _ => none

/-- The resolved discover URL used by the goto witnesses. -/
def gotoFinal : PyStr := ofStr "https://h.es/app/discover#frag"

/-- A login landing page. -/
def gotoLogin : PyStr := ofStr "https://accounts.google.com/signin"

/-- A fetcher whose unauthenticated attempt lands on the login page and whose
authenticated attempt reaches the discover URL. -/
def gotoFetch : Bool → Option PyStr :=
  fun b => if b then some gotoFinal else some gotoLogin

/-- A resolver that lands directly on the discover URL. -/
def gotoResolve : PyStr → Option PyStr := fun _ => some gotoFinal

/-- Triage input: authentication-topic ticket with no capture and no URL. -/
def authInput : TriageInput :=
  { capture := none, urlParams := none,
    ticketText := ofStr "User cannot use SSO to sign in",
    manualTerms := ofStr "12345", ticketCreatedAt := 100000 }

/-- Capture evidence with two identifiers. -/
def captureEv : CaptureEvidence :=
  { identifiers := [ofStr "u1", ofStr "u2"], timestamps := [50, 70] }

/-- URL-derived parameters available alongside the capture. -/
def urlEv : SpecSearchParams := { queryString := ofStr "zz", gte := 1, lte := 2 }

/-- Triage input carrying both a capture with identifiers and a resolvable
URL. -/
def bothInput : TriageInput :=
  { capture := some captureEv, urlParams := some urlEv,
    ticketText := ofStr "something broke", manualTerms := ofStr "12345",
    ticketCreatedAt := 100000 }

/-
Helper lemmas: the lexicographic order on PyStr and integer fold bounds.
-/

theorem pyLe_refl : ∀ x : PyStr, pyLe x x = true
  | [] => rfl
  | a :: xs => by simp [pyLe, pyLe_refl xs]

theorem pyLt_le : ∀ x y : PyStr, pyLt x y = true → pyLe x y = true
  | [], _, _ => rfl
  | _ :: _, [], h => by simp [pyLt] at h
  | a :: xs, b :: ys, h => by
    simp only [pyLt, pyLe] at *
    by_cases hab : a = b
    · rw [if_pos hab] at h ⊢
      exact pyLt_le xs ys h
    · rw [if_neg hab] at h ⊢
      exact h

theorem pyLe_trans : ∀ x y z : PyStr,
    pyLe x y = true → pyLe y z = true → pyLe x z = true
  | [], _, _, _, _ => rfl
  | _ :: _, [], _, h1, _ => by simp [pyLe] at h1
  | _ :: _, _ :: _, [], _, h2 => by simp [pyLe] at h2
  | a :: xs, b :: ys, c :: zs, h1, h2 => by
    simp only [pyLe] at *
    by_cases hab : a = b <;> by_cases hbc : b = c
    · subst hab; subst hbc
      rw [if_pos rfl] at h1 h2 ⊢
      exact pyLe_trans xs ys zs h1 h2
    · subst hab
      rw [if_pos rfl] at h1
      rw [if_neg hbc] at h2 ⊢
      exact h2
    · subst hbc
      rw [if_neg hab] at h1 ⊢
      exact h1
    · rw [if_neg hab] at h1
      rw [if_neg hbc] at h2
      have hac : a < c := lt_trans (of_decide_eq_true h1) (of_decide_eq_true h2)
      rw [if_neg (ne_of_lt hac)]
      exact decide_eq_true hac

theorem pyMinL_le : ∀ (l : List PyStr) (x : PyStr), pyLe (pyMinL x l) x = true
  | [], x => pyLe_refl x
  | b :: l, x => by
    show pyLe (pyMinL (if pyLt b x then b else x) l) x = true
    by_cases hb : pyLt b x = true
    · rw [if_pos hb]
      exact pyLe_trans _ _ _ (pyMinL_le l b) (pyLt_le _ _ hb)
    · rw [if_neg hb]
      exact pyMinL_le l x

theorem le_pyMaxL : ∀ (l : List PyStr) (x : PyStr), pyLe x (pyMaxL x l) = true
  | [], x => pyLe_refl x
  | b :: l, x => by
    show pyLe x (pyMaxL (if pyLt x b then b else x) l) = true
    by_cases hb : pyLt x b = true
    · rw [if_pos hb]
      exact pyLe_trans _ _ _ (pyLt_le _ _ hb) (le_pyMaxL l b)
    · rw [if_neg hb]
      exact le_pyMaxL l x

theorem pyMin_le_pyMax : ∀ l : List PyStr, l ≠ [] → pyLe (pyMin l) (pyMax l) = true
  | [], h => absurd rfl h
  | x :: l, _ =>
    pyLe_trans _ _ _ (pyMinL_le l x) (le_pyMaxL l x)

theorem intFoldMin_le : ∀ (l : List Int) (x : Int), l.foldl min x ≤ x
  | [], _ => le_refl _
  | b :: l, x => le_trans (intFoldMin_le l (min x b)) (min_le_left x b)

theorem le_intFoldMax : ∀ (l : List Int) (x : Int), x ≤ l.foldl max x
  | [], _ => le_refl _
  | b :: l, x => le_trans (le_max_left x b) (le_intFoldMax l (max x b))

theorem intMinL_le_intMaxL : ∀ l : List Int, intMinL l ≤ intMaxL l
  | [] => le_refl 0
  | x :: l => le_trans (intFoldMin_le l x) (le_intFoldMax l x)

/-
Helper lemmas: membership and duplicate freedom of the HAR UUID set fold.
-/

theorem mem_insertNew (acc : List PyStr) (x y : PyStr) :
    x ∈ insertNew acc y ↔ x ∈ acc ∨ x = y := by
  unfold insertNew
  by_cases h : y ∈ acc
  · rw [if_pos h]
    constructor
    · exact Or.inl
    · rintro (hx | rfl)
      · exact hx
      · exact h
  · rw [if_neg h]
    simp

theorem mem_setUnion (x : PyStr) :
    ∀ (xs acc : List PyStr), x ∈ setUnion acc xs ↔ x ∈ acc ∨ x ∈ xs
  | [], acc => by simp [setUnion]
  | y :: xs, acc => by
    show x ∈ setUnion (insertNew acc y) xs ↔ _
    rw [mem_setUnion x xs (insertNew acc y), mem_insertNew]
    simp [or_assoc]

theorem nodup_insertNew (acc : List PyStr) (y : PyStr) (h : acc.Nodup) :
    (insertNew acc y).Nodup := by
  unfold insertNew
  by_cases hy : y ∈ acc
  · rwa [if_pos hy]
  · rw [if_neg hy]
    simp [List.nodup_append, h, hy]

theorem nodup_setUnion :
    ∀ (xs acc : List PyStr), acc.Nodup → (setUnion acc xs).Nodup
  | [], _, h => h
  | y :: xs, acc, h =>
    nodup_setUnion xs (insertNew acc y) (nodup_insertNew acc y h)

theorem mem_textsFold (x : PyStr) :
    ∀ (ts : List PyStr) (acc : List PyStr),
      x ∈ ts.foldl (fun a t => setUnion a (extract_uuids t)) acc ↔
        x ∈ acc ∨ ∃ t ∈ ts, x ∈ extract_uuids t
  | [], acc => by simp
  | t :: ts, acc => by
    rw [List.foldl_cons, mem_textsFold x ts (setUnion acc (extract_uuids t)),
      mem_setUnion]
    simp [or_assoc]

theorem nodup_textsFold :
    ∀ (ts : List PyStr) (acc : List PyStr), acc.Nodup →
      (ts.foldl (fun a t => setUnion a (extract_uuids t)) acc).Nodup
  | [], _, h => h
  | t :: ts, acc, h =>
    nodup_textsFold ts (setUnion acc (extract_uuids t)) (nodup_setUnion _ acc h)

theorem mem_entryFold (x : PyStr) :
    ∀ (es : List HarEntry) (acc : List PyStr),
      x ∈ es.foldl (fun acc e => (entryUuidTexts e).foldl
          (fun a t => setUnion a (extract_uuids t)) acc) acc ↔
        x ∈ acc ∨ ∃ e ∈ es, ∃ t ∈ entryUuidTexts e, x ∈ extract_uuids t
  | [], acc => by simp
  | e :: es, acc => by
    rw [List.foldl_cons, mem_entryFold x es, mem_textsFold]
    simp [or_assoc]

theorem nodup_entryFold :
    ∀ (es : List HarEntry) (acc : List PyStr), acc.Nodup →
      (es.foldl (fun acc e => (entryUuidTexts e).foldl
          (fun a t => setUnion a (extract_uuids t)) acc) acc).Nodup
  | [], _, h => h
  | e :: es, acc, h =>
    nodup_entryFold es _ (nodup_textsFold (entryUuidTexts e) acc h)

theorem mem_uuidSetOf (x : PyStr) (es : List HarEntry) :
    x ∈ uuidSetOf es ↔ ∃ e ∈ es, ∃ t ∈ entryUuidTexts e, x ∈ extract_uuids t := by
  rw [uuidSetOf, mem_entryFold]
  simp

theorem nodup_uuidSetOf (es : List HarEntry) : (uuidSetOf es).Nodup :=
  nodup_entryFold es [] List.nodup_nil

theorem timesOf_fold (es : List HarEntry) :
    ∀ acc : List PyStr,
      es.foldl (fun acc e =>
          if e.startedDateTime = [] then acc else acc ++ [e.startedDateTime]) acc =
        acc ++ es.filterMap (fun e =>
          if e.startedDateTime = [] then none else some e.startedDateTime) := by
  induction es with
  | nil => simp
  | cons e es ih =>
    intro acc
    rw [List.foldl_cons, ih, List.filterMap_cons]
    by_cases h : e.startedDateTime = []
    · simp [h]
    · simp [h]

theorem timesOf_eq (es : List HarEntry) :
    timesOf es = es.filterMap (fun e =>
      if e.startedDateTime = [] then none else some e.startedDateTime) := by
  rw [timesOf, timesOf_fold]
  simp

theorem extract_uuids_nil : extract_uuids [] = [] := rfl

theorem mem_entryUuidTexts (t : PyStr) (e : HarEntry) :
    t ∈ entryUuidTexts e ↔
      t = e.url ∨
      (∃ h ∈ e.reqHeaders ++ e.respHeaders, isCorrHeader h = true ∧ t = h.value) ∨
      (e.body ≠ [] ∧ t = e.body.take 1000) := by
  unfold entryUuidTexts
  constructor
  · intro ht
    rcases List.mem_append.mp ht with h1 | h2
    · rcases List.mem_append.mp h1 with h0 | hmap
      · left
        simpa using h0
      · right; left
        rcases List.mem_map.mp hmap with ⟨h, hh, hv⟩
        rcases List.mem_filter.mp hh with ⟨hmem, hcorr⟩
        exact ⟨h, hmem, hcorr, hv.symm⟩
    · right; right
      by_cases hb : e.body = []
      · rw [if_pos hb] at h2
        exact absurd h2 (List.not_mem_nil t)
      · rw [if_neg hb] at h2
        simp at h2
        exact ⟨hb, h2⟩
  · rintro (rfl | ⟨h, hmem, hcorr, rfl⟩ | ⟨hb, rfl⟩)
    · exact List.mem_append.mpr (Or.inl (List.mem_append.mpr (Or.inl (by simp))))
    · refine List.mem_append.mpr (Or.inl (List.mem_append.mpr (Or.inr ?_)))
      exact List.mem_map.mpr ⟨h, List.mem_filter.mpr ⟨hmem, hcorr⟩, rfl⟩
    · refine List.mem_append.mpr (Or.inr ?_)
      rw [if_neg hb]
      simp

/-
Helper lemmas: symbolic evaluation of the YAML chunker on the oversized
single-section document, avoiding a character-by-character kernel reduction
of the 4505-character text.
-/

theorem splitChar_ne_nil (sep : Char) : ∀ s : PyStr, splitChar sep s ≠ []
  | [] => by simp [splitChar]
  | c :: rest => by
    simp only [splitChar]
    cases h : splitChar sep rest with
    | nil => simp
    | cons l ls => by_cases hc : c = sep <;> simp [hc]

theorem splitChar_no_sep (sep : Char) :
    ∀ s : PyStr, (∀ c ∈ s, c ≠ sep) → splitChar sep s = [s]
  | [], _ => rfl
  | c :: rest, h => by
    have hr := splitChar_no_sep sep rest (fun x hx => h x (List.mem_cons_of_mem c hx))
    simp [splitChar, hr, h c (List.mem_cons_self c rest)]

theorem splitChar_append_sep (sep : Char) :
    ∀ (xs ys : PyStr), (∀ c ∈ xs, c ≠ sep) →
      splitChar sep (xs ++ sep :: ys) = xs :: splitChar sep ys
  | [], ys, _ => by
    simp only [List.nil_append, splitChar]
    cases h : splitChar sep ys with
    | nil => exact absurd h (splitChar_ne_nil sep ys)
    | cons l ls => simp
  | x :: xs, ys, h => by
    have hx : x ≠ sep := h x (List.mem_cons_self x xs)
    have ih := splitChar_append_sep sep xs ys (fun c hc => h c (List.mem_cons_of_mem x hc))
    simp only [List.cons_append, splitChar, ih]
    simp [hx]
    rw [ih]

theorem joinNl_single (x : PyStr) : joinNl [x] = x := by
  simp [joinNl, List.intercalate]

theorem pyStrip_cons_concat (a b : Char) (mid : PyStr)
    (ha : isPySpace a = false) (hb : isPySpace b = false) :
    pyStrip (a :: (mid ++ [b])) = a :: (mid ++ [b]) := by
  unfold pyStrip
  rw [List.dropWhile_cons]
  rw [if_neg (by simp [ha])]
  have hrev : (a :: (mid ++ [b])).reverse = b :: (mid.reverse ++ [a]) := by
    simp [List.reverse_cons, List.reverse_append]
  rw [hrev, List.dropWhile_cons, if_neg (by simp [hb])]
  rw [← hrev, List.reverse_reverse]

theorem ymSaveMid_nilCur (file : PyStr) (ch : List Chunk) (k : Option PyStr)
    (n e : Nat) :
    ymSaveMid file { chunks := ch, current := [], key := k, startLine := n } e = ch := by
  simp [ymSaveMid]

theorem bigYaml_shape :
    bigYamlDoc = 'k' :: ((ofStr "ey: " ++ List.replicate 4499 'a') ++ ['a']) := by
  show ofStr "key: " ++ List.replicate 4500 'a' = _
  rw [show (4500 : Nat) = 4499 + 1 from rfl]
  rw [List.replicate_succ']
  rw [show ofStr "key: " = 'k' :: ofStr "ey: " from rfl]
  rw [List.cons_append, ← List.append_assoc]

theorem bigYaml_no_nl : ∀ c ∈ bigYamlDoc, c ≠ '\n' := by
  intro c hc
  unfold bigYamlDoc at hc
  rcases List.mem_append.mp hc with h | h
  · rw [show ofStr "key: " = ['k', 'e', 'y', ':', ' '] from rfl] at h
    simp only [List.mem_cons, List.not_mem_nil, or_false] at h
    rcases h with rfl | rfl | rfl | rfl | rfl <;> decide
  · rw [List.eq_of_mem_replicate h]
    decide

theorem bigYaml_split : splitNl bigYamlDoc = [bigYamlDoc] :=
  splitChar_no_sep '\n' bigYamlDoc bigYaml_no_nl

theorem bigYaml_strip : pyStrip bigYamlDoc = bigYamlDoc := by
  conv_lhs => rw [bigYaml_shape]
  rw [pyStrip_cons_concat 'k' 'a' _ (by decide) (by decide)]
  exact bigYaml_shape.symm

theorem bigYaml_len : bigYamlDoc.length = 4505 := by
  unfold bigYamlDoc
  rw [List.length_append, List.length_replicate]
  rfl

theorem bigYaml_key : pyStrip ((splitChar ':' bigYamlDoc).headD []) = ofStr "key" := by
  rw [show bigYamlDoc = ofStr "key" ++ ':' :: (ofStr " " ++ List.replicate 4500 'a')
    from rfl]
  rw [splitChar_append_sep ':' (ofStr "key") _ (by decide)]
  decide

theorem bigYaml_sls :
    split_large_yaml_section bigYamlDoc (ofStr "f.yml") 1 (some (ofStr "key")) =
      [bigChunk] := by
  simp only [split_large_yaml_section, bigYaml_split]
  rw [show pyRangeStep ([bigYamlDoc] : List PyStr).length 2000 = [0] from by decide]
  simp only [List.filterMap_cons, List.filterMap_nil, List.drop_zero]
  rw [List.take_of_length_le (by simp)]
  rw [joinNl_single, bigYaml_strip, bigYaml_len]
  rw [if_pos (by norm_num : (30 : Nat) < 4505)]
  simp only [List.cons.injEq, and_true]
  rw [show ([bigYamlDoc] : List PyStr).length = 1 from rfl]
  unfold bigChunk
  simp only [Chunk.mk.injEq]
  norm_num [Chunk.mk.injEq]
  decide

theorem bigYaml_loop (total : Nat) :
    chunkYamlLoop (ofStr "f.yml") total 0
      { chunks := [], current := [], key := none, startLine := 0 }
      [bigYamlDoc] = [bigChunk] := by
  unfold chunkYamlLoop
  rw [show isTopLevelKey bigYamlDoc = true from by decide]
  rw [if_pos rfl]
  rw [ymSaveMid_nilCur, bigYaml_key]
  unfold chunkYamlLoop
  unfold ymSaveEnd
  dsimp only
  rw [if_pos (by simp : ([bigYamlDoc] : List PyStr) ≠ [])]
  rw [joinNl_single, bigYaml_strip, bigYaml_len]
  rw [if_pos (by norm_num : (30 : Nat) < 4505)]
  rw [if_neg (by norm_num : ¬(4505 : Nat) < 4000)]
  rw [Nat.zero_add, bigYaml_sls, List.nil_append]

theorem bigYaml_run :
    chunk_yaml_file bigYamlDoc (ofStr "f.yml") = [bigChunk] := by
  unfold chunk_yaml_file
  simp only [bigYaml_split]
  rw [bigYaml_loop]
  rw [if_neg (by simp : ¬([bigChunk] : List Chunk) = [])]

/-
Claim theorems.
-/

/-- Claim C1, counterexample: querying CodeRAG over an index whose count is
zero returns the empty list — exactly the representation of an empty match
list, not a distinguishable not-indexed signal, refuting the claim at the
level of CodeRAG.query and ConfluenceRAG.query. -/
theorem c1_counterexample :
    code_rag_query ragEmptyStore (ofStr "q") none = [] := by decide

/-- Claim C1 as amended: CodeRAG.query and ConfluenceRAG.query return an
empty list when count() is zero; the explicit not-indexed signal that is
distinguishable from both the no-matches output and any match list is
produced one layer up, by SemanticCodeSearchTool, which checks count() before
querying. -/
theorem c1_amended (store : RagStore) (q : PyStr) (k : Nat)
    (hq : q ≠ []) (hc : store.count = 0) :
    code_rag_query store q (some k) = [] ∧
    semantic_code_search_run store q k = ToolOutput.notIndexed ∧
    (∀ ms : List ToolMatch, ToolOutput.notIndexed ≠ ToolOutput.matches ms) ∧
    ToolOutput.notIndexed ≠ ToolOutput.noMatches := by
  refine ⟨?_, ?_, ?_, ?_⟩
  · unfold code_rag_query
    simp [hc]
  · unfold semantic_code_search_run
    simp [hq, hc]
  · intro ms h
    cases h
  · intro h
    cases h

/-- Claim C1 witness: the amended theorem at the concrete empty store. -/
theorem c1_witness :
    semantic_code_search_run ragEmptyStore (ofStr "q") 5 = ToolOutput.notIndexed :=
  (c1_amended ragEmptyStore (ofStr "q") 5 (by decide) rfl).2.1

/-- Claim C2: with a capture carrying at least one extracted identifier and a
resolvable URL both available, the builder takes the capture rule (first
match wins): the data-source tag is capture, the query string is built only
from the identifiers joined by OR, and the result does not depend on the URL
parameters at all.  spec-modelled: the policy is executed by an LLM following
the LogUrlGenerator prompt, so the rules are modelled from the spec. -/
theorem c2_capture_priority (inp : TriageInput) (c : CaptureEvidence)
    (u : SpecSearchParams) (hc : inp.capture = some c)
    (hi : c.identifiers ≠ []) (_hu : inp.urlParams = some u) :
    (buildQuery inp).tag = SourceKind.capture ∧
    (buildQuery inp).params.queryString = joinOr c.identifiers ∧
    ∀ u2 : Option SpecSearchParams,
      buildQuery { inp with urlParams := u2 } = buildQuery inp := by
  refine ⟨?_, ?_, ?_⟩
  · simp [buildQuery, hc, hi]
  · simp [buildQuery, hc, hi]
  · intro u2
    simp [buildQuery, hc, hi]

/-- Claim C2 witness: the concrete input carrying both evidence kinds takes
the capture path with the OR-joined identifier query. -/
theorem c2_witness :
    (buildQuery bothInput).tag = SourceKind.capture ∧
    (buildQuery bothInput).params.queryString = joinOr captureEv.identifiers :=
  ⟨(c2_capture_priority bothInput captureEv urlEv rfl (by decide) rfl).1,
   (c2_capture_priority bothInput captureEv urlEv rfl (by decide) rfl).2.1⟩

/-- Claim C3: an authentication-keyword ticket with neither a capture nor a
resolvable URL triages to Escalate(authentication) and no log search is
issued (the issued-search component is none).  spec-modelled: the policy is
executed by an LLM following the LogUrlGenerator prompt, so the rules are
modelled from the spec. -/
theorem c3_auth_escalation (inp : TriageInput) (b : Bool)
    (ha : hasAuthKeyword inp.ticketText = true)
    (hc : inp.capture = none) (hu : inp.urlParams = none) :
    triage inp b = (TriageDecision.escalate (ofStr "authentication"), none) := by
  unfold triage
  simp [ha, hc, hu]

/-- Claim C3 witness: the concrete SSO ticket with no capture and no URL. -/
theorem c3_witness :
    triage authInput false =
      (TriageDecision.escalate (ofStr "authentication"), none) :=
  c3_auth_escalation authInput false (by decide) rfl rfl

/-- Claim C9, counterexample: a result at distance 2 (exactly representable
in floating point) is formatted with relevance score 1 - 2 = -1, which lies
below any sane normalized range — the score is not clamped. -/
theorem c9_counterexample :
    semantic_code_search_run ragFarStore (ofStr "q") 5 =
      ToolOutput.matches [formatMatch ragFarResult] ∧
    (formatMatch ragFarResult).relevance_score = -1 ∧
    (formatMatch ragFarResult).relevance_score < 0 := by
  refine ⟨?_, ?_, ?_⟩
  · norm_num [semantic_code_search_run, code_rag_query, ragFarStore, ofStr]
  · norm_num [formatMatch, ragFarResult]
  · norm_num [formatMatch, ragFarResult]

/-- Claim C9 as amended: the relevance score equals 1 minus the distance with
no clamping (so it can leave the normalized range, as the counterexample
shows), and the chunk text is returned verbatim and untruncated; the tool
output is exactly the map of this formatting over the query results. -/
theorem c9_amended (store : RagStore) (q : PyStr) (k : Nat)
    (hq : q ≠ []) (hc : store.count ≠ 0)
    (hr : code_rag_query store q (some k) ≠ []) :
    (∀ r : RagResult, (formatMatch r).relevance_score = 1 - r.dist ∧
      (formatMatch r).code_snippet = r.text ∧
      (formatMatch r).snippet_length = r.text.length) ∧
    semantic_code_search_run store q k =
      ToolOutput.matches ((code_rag_query store q (some k)).map formatMatch) := by
  refine ⟨fun r => ⟨rfl, rfl, rfl⟩, ?_⟩
  unfold semantic_code_search_run
  simp [hq, hc, hr]

/-- Claim C9 witness: the amended theorem at the concrete one-result store. -/
theorem c9_witness :
    semantic_code_search_run ragFarStore (ofStr "q") 5 =
      ToolOutput.matches ((code_rag_query ragFarStore (ofStr "q") (some 5)).map
        formatMatch) :=
  (c9_amended ragFarStore (ofStr "q") 5 (by decide) (by decide) (by decide)).2

/-- Claim C4, counterexample: the one-line document hello (one line, below
the noise threshold) is split into zero chunks by both the Ruby and the
generic strategy, so line 1 lies in no chunk range — coverage fails. -/
theorem c4_counterexample :
    chunk_ruby_file helloDoc (ofStr "f.rb") = [] ∧
    chunk_generic_file helloDoc (ofStr "f.txt") = [] ∧
    (splitNl helloDoc).length = 1 := by decide

/-- Claim C4 as amended: the sliding windows of the generic chunker cover
every line; a window is kept only when its stripped text exceeds the
50-character noise threshold, so whenever every window passes the threshold,
every line of the document lies in some produced chunk range. -/
theorem c4_amended (content file : PyStr) (l : Nat)
    (hall : ∀ i ∈ pyRangeStep (splitNl content).length 45,
      50 < (pyStrip (joinNl (((splitNl content).drop i).take 50))).length)
    (h1 : 1 ≤ l) (h2 : l ≤ (splitNl content).length) :
    ∃ c ∈ chunk_generic_file content file, c.start_line ≤ l ∧ l ≤ c.end_line := by
  obtain ⟨d, r, hdr, hr⟩ : ∃ d r, 45 * d + r = l - 1 ∧ r < 45 :=
    ⟨(l - 1) / 45, (l - 1) % 45, Nat.div_add_mod (l - 1) 45, Nat.mod_lt _ (by norm_num)⟩
  have hin : d * 45 < (splitNl content).length := by omega
  have himem : d * 45 ∈ pyRangeStep (splitNl content).length 45 := by
    simp only [pyRangeStep, List.mem_map, List.mem_range]
    refine ⟨d, ?_, rfl⟩
    have hd45 : (d + 1) * 45 ≤ (splitNl content).length + 44 := by omega
    have := (Nat.le_div_iff_mul_le (by norm_num : 0 < 45)).mpr hd45
    omega
  refine ⟨{ id := chunkId file (d * 45 + 1),
            text := joinNl (((splitNl content).drop (d * 45)).take 50),
            file := file, start_line := d * 45 + 1,
            end_line := min (d * 45 + 50) (splitNl content).length,
            name := none, ctype := some (ofStr "generic_chunk") }, ?_, ?_, ?_⟩
  · simp only [chunk_generic_file]
    rw [List.mem_filterMap]
    refine ⟨d * 45, himem, ?_⟩
    dsimp only
    rw [if_pos (hall (d * 45) himem)]
  · show d * 45 + 1 ≤ l
    omega
  · show l ≤ min (d * 45 + 50) (splitNl content).length
    exact le_min (by omega) h2

/-- Claim C4 witness: the amended theorem at the 60-character one-line
document, whose single window passes the threshold, covering line 1. -/
theorem c4_witness :
    ∃ c ∈ chunk_generic_file longLineDoc (ofStr "f.txt"),
      c.start_line ≤ 1 ∧ 1 ≤ c.end_line :=
  c4_amended longLineDoc (ofStr "f.txt") 1 (by decide) (by decide) (by decide)

/-- Claim C5, counterexample: a YAML document whose single section is one
4505-character line is re-split, yet the one resulting chunk keeps all 4505
characters — far above the configured 2000-character maximum — because the
re-split counts lines, not characters. -/
theorem c5_counterexample :
    (chunk_yaml_file bigYamlDoc (ofStr "f.yml")).map
        (fun c => (c.name, c.text.length)) =
      [(some (ofStr "key_part_1"), 4505)] ∧ 2000 < 4505 := by
  constructor
  · rw [bigYaml_run]
    simp only [List.map_cons, List.map_nil]
    rw [show bigChunk.name = some (ofStr "key_part_1") from rfl]
    rw [show bigChunk.text = bigYamlDoc from rfl, bigYaml_len]
  · norm_num

/-- Claim C5 as amended: every chunk produced by the re-split of an oversized
YAML section inherits the section name with the sequential part suffix and
starts at the corresponding 2000-line offset, and spans at most 2150 lines
(the 2000-line step plus the 150-line overlap); the configured maximum is a
line-count bound here, not the character-length bound the claim states. -/
theorem c5_amended (content file : PyStr) (sl : Nat) (nm : Option PyStr)
    (c : Chunk) (hc : c ∈ split_large_yaml_section content file sl nm) :
    ∃ k, c.name = some ((nm.getD (ofStr "None")) ++ ofStr "_part_" ++
        natChars (k + 1)) ∧
      c.start_line = sl + 2000 * k ∧
      c.end_line - c.start_line ≤ 2150 := by
  simp only [split_large_yaml_section] at hc
  rw [List.mem_filterMap] at hc
  obtain ⟨i, hi, hfi⟩ := hc
  simp only [pyRangeStep, List.mem_map, List.mem_range] at hi
  obtain ⟨k, _, hki⟩ := hi
  split at hfi
  · rw [Option.some.injEq] at hfi
    subst hfi
    have hdiv : i / 2000 = k := by
      rw [← hki]
      exact Nat.mul_div_cancel k (by norm_num)
    refine ⟨k, ?_, ?_, ?_⟩
    · simp [hdiv]
    · simp
      omega
    · simp only
      have := List.length_take (2000 + 150) ((splitNl content).drop i)
      omega
  · cases hfi

/-- Claim C5 witness: the amended theorem at the 40-character section, whose
single sub-chunk carries suffix part 1 at offset 0. -/
theorem c5_witness :
    ∃ k, smallSectionChunk.name = some (((some (ofStr "key")).getD
        (ofStr "None")) ++ ofStr "_part_" ++ natChars (k + 1)) ∧
      smallSectionChunk.start_line = 1 + 2000 * k ∧
      smallSectionChunk.end_line - smallSectionChunk.start_line ≤ 2150 :=
  c5_amended smallSection (ofStr "f.yml") 1 (some (ofStr "key"))
    smallSectionChunk (by decide)

/-- Claim C6, counterexample: a discover URL whose fragment carries the
reversed range from b to a parses successfully, and the produced parameters
have lower bound b above upper bound a — the parser copies the bounds
verbatim and never enforces the ordering invariant. -/
theorem c6_counterexample :
    parse_haystack_url noResolve reversedUrl = some reversedParams ∧
    pyLe reversedParams.timestamp_gte reversedParams.timestamp_lte = false := by
  decide

/-- Claim C6 as amended: the capture-derived path satisfies lower bound at
most upper bound (minimum minus 30 at most maximum plus 30), and the HAR tool
min/max report is ordered likewise; but URL-parsed parameters copy the
fragment captures verbatim, so their ordering holds only when the URL itself
is ordered. -/
theorem c6_amended :
    (∀ (inp : TriageInput) (c : CaptureEvidence), inp.capture = some c →
      c.identifiers ≠ [] →
      (buildQuery inp).params.gte ≤ (buildQuery inp).params.lte) ∧
    (∀ ts : List PyStr, ts ≠ [] → pyLe (pyMin ts) (pyMax ts) = true) ∧
    (∀ (u : PyStr) (p : HsParams), parse_discover_url u = some p →
      (p.timestamp_gte, p.timestamp_lte) =
        match findTime (unquote (((splitChar '#' u).drop 1).headD [])) with
        | some r => r
        | none => ([], [])) := by
  refine ⟨?_, pyMin_le_pyMax, ?_⟩
  · intro inp c hc hi
    simp [buildQuery, hc, hi]
    have := intMinL_le_intMaxL c.timestamps
    omega
  · intro u p h
    unfold parse_discover_url at h
    split at h
    · split at h
      · cases h
      · rename_i frag0 tail heq
        rw [Option.some.injEq] at h
        subst h
        rw [heq]
        simp only [List.headD]
        cases hft : findTime (unquote frag0) with
        | none => simp [hft]
        | some r =>
          obtain ⟨f, t⟩ := r
          simp [hft]
    · cases h

/-- Claim C6 witness: the amended theorem at the concrete capture input. -/
theorem c6_witness :
    (buildQuery bothInput).params.gte ≤ (buildQuery bothInput).params.lte :=
  c6_amended.1 bothInput captureEv rfl (by decide)

/-- Claim C7, counterexample: HaystackURLParser resolves goto URLs with a
single redirect-following request that always carries the configured cookies
— the trace of cookie flags is [true] although no unauthenticated attempt
preceded it, refuting the claim for this resolver. -/
theorem c7_counterexample :
    (parse_goto_url_runs gotoResolve (ofStr "https://h.es/goto/abc")).2 =
      [true] := by decide

/-- Claim C7 as amended: the standalone expander expand_goto_url does follow
the contract — its first request is always unauthenticated, cookies are sent
only when the unauthenticated attempt lands on a login page, and a URL is
returned only when it contains /app/discover (null otherwise); the parser
internal _parse_goto_url, by contrast, sends cookies on its only request. -/
theorem c7_amended (fetch : Bool → Option PyStr) :
    (expand_goto_url_runs fetch).2.head? = some false ∧
    (true ∈ (expand_goto_url_runs fetch).2 →
      ∃ u1, fetch false = some u1 ∧ isLoginUrl u1 = true) ∧
    (∀ u, expand_goto_url fetch = some u →
      containsSub (ofStr "/app/discover") u = true) := by
  unfold expand_goto_url expand_goto_url_runs
  cases hf : fetch false with
  | none => simp
  | some u1 =>
    by_cases hl : isLoginUrl u1 = true
    · cases hft : fetch true with
      | none => simp [hl, hft]
      | some u2 =>
        by_cases hl2 : isLoginUrl u2 = true
        · simp [hl, hft, hl2]
        · simp only [Bool.not_eq_true] at hl2
          by_cases hd2 : containsSub (ofStr "/app/discover") u2 = true
          · simp [hl, hft, hl2, hd2]
          · simp only [Bool.not_eq_true] at hd2
            simp [hl, hft, hl2, hd2]
    · simp only [Bool.not_eq_true] at hl
      by_cases hd1 : containsSub (ofStr "/app/discover") u1 = true
      · simp [hl, hd1]
      · simp only [Bool.not_eq_true] at hd1
        simp [hl, hd1]

/-- Claim C7 witness: the amended theorem at the fetcher whose public attempt
lands on the login page; the expander retries with cookies and the returned
URL contains /app/discover. -/
theorem c7_witness :
    containsSub (ofStr "/app/discover") gotoFinal = true ∧
    (expand_goto_url_runs gotoFetch).2.head? = some false :=
  ⟨(c7_amended gotoFetch).2.2 gotoFinal (by decide), (c7_amended gotoFetch).1⟩

/-- Claim C8: with error focus requested, the HAR extraction considers
exactly the first 10 entries of status at least 400; a UUID belongs to the
extracted set exactly when some considered entry yields it from its request
URL, from a correlation / request-id / trace header value, or from the first
1000 characters of its response body; the set is duplicate-free, and the
collected timestamps are the nonempty start timestamps of the considered
entries in order. -/
theorem c8_har_extraction (entries : List HarEntry) (x : PyStr) :
    (x ∈ uuidSetOf ((harFailed entries true).take 10) ↔
      ∃ e ∈ (entries.filter (fun e => decide (400 ≤ e.status))).take 10,
        x ∈ extract_uuids e.url ∨
        (∃ h ∈ e.reqHeaders ++ e.respHeaders, isCorrHeader h = true ∧
          x ∈ extract_uuids h.value) ∨
        x ∈ extract_uuids (e.body.take 1000)) ∧
    timesOf ((harFailed entries true).take 10) =
      ((entries.filter (fun e => decide (400 ≤ e.status))).take 10).filterMap
        (fun e => if e.startedDateTime = [] then none
                  else some e.startedDateTime) ∧
    (uuidSetOf ((harFailed entries true).take 10)).Nodup ∧
    harFailed entries true = entries.filter (fun e => decide (400 ≤ e.status)) := by
  have hff : harFailed entries true =
      entries.filter (fun e => decide (400 ≤ e.status)) := by
    unfold harFailed
    rw [if_pos rfl]
  refine ⟨?_, ?_, nodup_uuidSetOf _, hff⟩
  · rw [hff, mem_uuidSetOf]
    constructor
    · rintro ⟨e, he, t, ht, hx⟩
      refine ⟨e, he, ?_⟩
      rw [mem_entryUuidTexts] at ht
      rcases ht with rfl | ⟨h, hh, hcorr, rfl⟩ | ⟨hb, rfl⟩
      · exact Or.inl hx
      · exact Or.inr (Or.inl ⟨h, hh, hcorr, hx⟩)
      · exact Or.inr (Or.inr hx)
    · rintro ⟨e, he, hx | ⟨h, hh, hcorr, hx⟩ | hx⟩
      · exact ⟨e, he, e.url, (mem_entryUuidTexts _ _).mpr (Or.inl rfl), hx⟩
      · exact ⟨e, he, h.value,
          (mem_entryUuidTexts _ _).mpr (Or.inr (Or.inl ⟨h, hh, hcorr, rfl⟩)), hx⟩
      · by_cases hb : e.body = []
        · rw [hb] at hx
          simp [extract_uuids_nil] at hx
        · exact ⟨e, he, e.body.take 1000,
            (mem_entryUuidTexts _ _).mpr (Or.inr (Or.inr ⟨hb, rfl⟩)), hx⟩
  · rw [hff, timesOf_eq]

/-- Claim C8 witness: the URL UUID of the failed entry is extracted from the
two-entry capture whose successful entry is skipped. -/
theorem c8_witness :
    harU1 ∈ uuidSetOf ((harFailed [harE1, harE2] true).take 10) :=
  (c8_har_extraction [harE1, harE2] harU1).1.mpr
    ⟨harE1, by decide, Or.inl (by decide)⟩

/-- Claim C10: parse_haystack_url is total (every input yields a parameter
record or none — exceptions are caught and become none); a URL containing
neither /goto/ nor /app/discover yields none, and a URL without a hash
fragment that is not a goto URL yields none. -/
theorem c10_parse_url_totality (resolve : PyStr → Option PyStr) (u : PyStr) :
    (containsSub (ofStr "/goto/") u = false →
      containsSub (ofStr "/app/discover") u = false →
      parse_haystack_url resolve u = none) ∧
    (containsSub (ofStr "/goto/") u = false → containsSub ['#'] u = false →
      parse_haystack_url resolve u = none) ∧
    (parse_haystack_url resolve u = none ∨
      ∃ p, parse_haystack_url resolve u = some p) := by
  refine ⟨?_, ?_, ?_⟩
  · intro hg hd
    unfold parse_haystack_url
    simp [hg, hd]
  · intro hg hh
    unfold parse_haystack_url parse_discover_url
    simp [hg, hh]
  · cases h : parse_haystack_url resolve u with
    | none => exact Or.inl rfl
    | some p => exact Or.inr ⟨p, rfl⟩

/-- Claim C10 witness: a discover URL without a fragment and an unsupported
URL both parse to none. -/
theorem c10_witness :
    parse_haystack_url noResolve (ofStr "https://h.es/app/discover") = none ∧
    parse_haystack_url noResolve (ofStr "https://h.es/elsewhere") = none :=
  ⟨(c10_parse_url_totality noResolve (ofStr "https://h.es/app/discover")).2.1
      (by decide) (by decide),
   (c10_parse_url_totality noResolve (ofStr "https://h.es/elsewhere")).1
      (by decide) (by decide)⟩

end Sifra
